import Mathlib

set_option maxHeartbeats 1000000

/-!
Verification of the Confluence upload automation scripts
(`confluence_automation.py`, `upload_ils.py`, `upload_ils_folder.py`).

The Python functions are shallowly embedded: each HTTP round-trip is
modelled by a response value supplied as an input (the environment), the
observable behaviour of a function is the list of write requests it
issues together with the diagnostic lines it prints, and a Python
function that can raise is embedded with codomain `Except PyErr`.
-/

/-- The exceptions the scripts can raise.  The Python code raises generic
`Exception` values with distinct message texts; each constructor below
corresponds to one raise site and carries the data interpolated into the
message. -/
inductive PyErr where
  /-- `confluence_automation.py` line 52: missing configuration. -/
  | valueError : PyErr
  /-- line 68: the title lookup returned a non-200 status. -/
  | fetchFailed (status : Nat) (text : String) : PyErr
  /-- line 77: the lookup body was not JSON. -/
  | jsonDecodeError : PyErr
  /-- line 81: no page with the given title in the space. -/
  | noPageFound (title : String) (spaceKey : String) : PyErr
  /-- line 83: `data["results"][0]` on an empty list. -/
  | indexError : PyErr
  /-- line 220: initial attachment POST failed with a non-collision status. -/
  | uploadFailed (status : Nat) (text : String) : PyErr
  /-- line 213: the attachment data-endpoint POST failed. -/
  | updateAttachmentFailed (status : Nat) (text : String) : PyErr
  /-- line 216: collision reported but the existing attachment was not found. -/
  | attachmentNotFound (status : Nat) (text : String) : PyErr
deriving DecidableEq

/-- The configuration read from the environment
(`CONFLUENCE_BASE_URL`, `CONFLUENCE_SPACE_KEY`); an unset or empty
variable is the empty string (both are falsy in the Python guard). -/
structure Config where
  baseUrl : String
  spaceKey : String
deriving DecidableEq

/-- One entry of the JSON `results` list returned by the content query:
its `id`, the ids of its `ancestors` in order (last element is the direct
parent), and its `version.number`. -/
structure PageResult where
  id : String
  ancestorIds : List String
  versionNumber : Nat
deriving DecidableEq

/-- The parsed JSON body of a content query: the `size` field and the
`results` list (the code reads both fields independently). -/
structure SearchData where
  size : Nat
  results : List PageResult
deriving DecidableEq

/-- An HTTP response to the title-lookup GET: status, raw text, and the
parsed JSON body (`none` models a body that is not JSON, e.g. an
authentication redirect page). -/
structure LookupResp where
  status : Nat
  text : String
  json : Option SearchData
deriving DecidableEq

/-- Embedding of `get_page_id_by_title` (confluence_automation.py
lines 46-83).  `resp` is the response the GET at line 60 receives. -/
def get_page_id_by_title (title : String) (cfg : Config) (resp : LookupResp) :
    Except PyErr String :=
  if cfg.baseUrl = "" ∨ cfg.spaceKey = "" then
    .error .valueError
  else if resp.status ≠ 200 then
    .error (.fetchFailed resp.status resp.text)
  else
    match resp.json with
    | none => .error .jsonDecodeError
    | some data =>
      if data.size = 0 then
        .error (.noPageFound title cfg.spaceKey)
      else
        match data.results with
        | [] => .error .indexError
        | r :: _ => .ok r.id

/-- The JSON payload of a page write request (confluence_automation.py
lines 129-137 for an update, 153-159 for a create): `id` and `version`
are present only in update payloads; `ancestorIds` models the
`ancestors` list of `{id: ...}` objects by its ids. -/
structure PagePayload where
  id : Option String
  title : String
  ancestorIds : List String
  spaceKey : String
  body : String
  version : Option Nat
deriving DecidableEq

/-- A write request issued by `new_page`: a PUT to
`/rest/api/content/{pageId}` or a POST to `/rest/api/content/`. -/
inductive WriteReq where
  | put (pageId : String) (payload : PagePayload)
  | post (payload : PagePayload)
deriving DecidableEq

/-- The response to a write request: status, raw text, and the
`_links.webui` field of the JSON body. -/
structure WriteResp where
  status : Nat
  text : String
  webui : String
deriving DecidableEq

/-- One diagnostic line printed by `new_page`, one constructor per
`print` call (lines 101, 145-150, 167-172 of
confluence_automation.py), carrying the interpolated data. -/
inductive OutputEvent where
  | errorFindingParent (parent : String) (e : PyErr)
  | pageUpdated
  | pageCreated
  | url (u : String)
  | failedUpdate
  | failedCreate
  | statusCode (n : Nat)
  | responseBody (t : String)
deriving DecidableEq

/-- The response to the existence-check GET of `new_page` (line 109):
status and parsed `results` list (the code uses
`data.get("results", [])`, so an absent key is the empty list). -/
structure ExistResp where
  status : Nat
  results : List PageResult
deriving DecidableEq

/-- The environment of one `new_page` call: the response the parent
title lookup receives, the response the existence-check GET receives,
and the response each possible write request would receive. -/
structure NewPageEnv where
  parentResp : LookupResp
  existResp : ExistResp
  writeResp : WriteReq → WriteResp

/-- The observable outcome of a `new_page` call: the write requests it
issued and the lines it printed.  The Python function itself always
returns `None`, so the run carries no return value. -/
structure NewPageRun where
  writes : List WriteReq
  prints : List OutputEvent
deriving DecidableEq

/-- The candidate-selection loop of `new_page` (lines 117-124): walk the
`results` list and stop at the first entry whose `ancestors` list is
non-empty and whose last ancestor id equals `parentId`
(`ancestors and ancestors[-1]["id"] == parent_id`). -/
def findTarget (results : List PageResult) (parentId : String) : Option PageResult :=
  results.find? (fun r => r.ancestorIds.getLast? == some parentId)

/-- The update request built at lines 128-137: PUT to the existing
page's id, with the single resolved parent as ancestor and declared
version `existing version + 1`. -/
def updateReq (title content : String) (cfg : Config) (parentId : String)
    (r : PageResult) : WriteReq :=
  .put r.id ⟨some r.id, title, [parentId], cfg.spaceKey, content,
    some (r.versionNumber + 1)⟩

/-- The create request built at lines 152-159: POST with the single
resolved parent as ancestor and no id or version. -/
def createReq (title content : String) (cfg : Config) (parentId : String) : WriteReq :=
  .post ⟨none, title, [parentId], cfg.spaceKey, content, none⟩

/-- The update branch of `new_page` (lines 126-150): issue the PUT and
print success (with the web URL) on status 200, otherwise print the
failure notice, the status code and the response body. -/
def updateBranch (title content : String) (cfg : Config) (env : NewPageEnv)
    (parentId : String) (r : PageResult) : NewPageRun :=
  if (env.writeResp (updateReq title content cfg parentId r)).status = 200 then
    ⟨[updateReq title content cfg parentId r],
      [.pageUpdated,
        .url (cfg.baseUrl ++ (env.writeResp (updateReq title content cfg parentId r)).webui)]⟩
  else
    ⟨[updateReq title content cfg parentId r],
      [.failedUpdate,
        .statusCode (env.writeResp (updateReq title content cfg parentId r)).status,
        .responseBody (env.writeResp (updateReq title content cfg parentId r)).text]⟩

/-- The create branch of `new_page` (lines 151-172): issue the POST and
print success (with the web URL) on status 200 or 201, otherwise print
the failure notice, the status code and the response body. -/
def createBranch (title content : String) (cfg : Config) (env : NewPageEnv)
    (parentId : String) : NewPageRun :=
  if (env.writeResp (createReq title content cfg parentId)).status = 200 ∨
      (env.writeResp (createReq title content cfg parentId)).status = 201 then
    ⟨[createReq title content cfg parentId],
      [.pageCreated,
        .url (cfg.baseUrl ++ (env.writeResp (createReq title content cfg parentId)).webui)]⟩
  else
    ⟨[createReq title content cfg parentId],
      [.failedCreate,
        .statusCode (env.writeResp (createReq title content cfg parentId)).status,
        .responseBody (env.writeResp (createReq title content cfg parentId)).text]⟩

/-- Embedding of `new_page` (confluence_automation.py lines 86-172).
A failed parent lookup is caught (lines 98-102): the function prints
the error and returns without issuing any write.  Otherwise the page is
treated as existing only when the existence-check GET returned 200 and
some candidate passes the parent filter; the corresponding branch then
runs.  The function never raises (the `Except` layer records that). -/
def new_page (title content parent : String) (cfg : Config) (env : NewPageEnv) :
    Except PyErr NewPageRun :=
  match get_page_id_by_title parent cfg env.parentResp with
  | .error e => .ok ⟨[], [.errorFindingParent parent e]⟩
  | .ok parentId =>
    match (if env.existResp.status = 200 then
            findTarget env.existResp.results parentId
           else none) with
    | some r => .ok (updateBranch title content cfg env parentId r)
    | none => .ok (createBranch title content cfg env parentId)

/-- A concrete `new_page` environment in which the parent resolves, one
candidate matches the parent filter, and the PUT is answered with
status 409 (a version conflict). -/
def conflictEnv : NewPageEnv :=
  ⟨⟨200, "", some ⟨1, [⟨"pa1", [], 1⟩]⟩⟩,
   ⟨200, [⟨"p9", ["root", "pa1"], 3⟩]⟩,
   fun _ => ⟨409, "Version conflict", "/x"⟩⟩

/-- A plain HTTP response: status code and raw body text. -/
structure HttpResp where
  status : Nat
  text : String
deriving DecidableEq

/-- One entry of the attachment lookup's `results` list; the code reads
only its `id` (confluence_automation.py line 205). -/
structure AttJson where
  id : String
deriving DecidableEq

/-- Decidable substring test on char lists, embedding Python's
`needle in haystack`. -/
def containsSub (needle : List Char) : List Char → Bool
  | [] => needle.isEmpty
  | c :: rest => needle.isPrefixOf (c :: rest) || containsSub needle rest

/-- The three attachment endpoints `upload_attachment_to_page` calls,
as transformers of an abstract remote state `σ`: POST of a new
attachment under a page, GET of the attachments of a page filtered by
filename, and POST of new binary content to an attachment's `data`
endpoint. -/
structure AttServer (σ : Type) where
  postNew : σ → String → String → List Nat → HttpResp × σ
  getByFilename : σ → String → String → (HttpResp × List AttJson) × σ
  postData : σ → String → String → String → List Nat → HttpResp × σ

/-- The value a successful `upload_attachment_to_page` returns: the
JSON of the create response, or of the data-endpoint response for an
in-place update of attachment `attId`. -/
inductive AttachOutcome where
  | created : AttachOutcome
  | updated (attId : String) : AttachOutcome
deriving DecidableEq

/-- The update tail of the collision path (lines 206-215): POST the
bytes to the existing attachment's data endpoint; on 200/201 return its
JSON, otherwise raise the update-failure exception. -/
def dataPath {σ : Type} (srv : AttServer σ) (pageId attId filename : String)
    (fileBytes : List Nat) (s2 : σ) : Except PyErr AttachOutcome × σ :=
  if (srv.postData s2 pageId attId filename fileBytes).1.status = 200 ∨
      (srv.postData s2 pageId attId filename fileBytes).1.status = 201 then
    (.ok (.updated attId), (srv.postData s2 pageId attId filename fileBytes).2)
  else
    (.error (.updateAttachmentFailed
        (srv.postData s2 pageId attId filename fileBytes).1.status
        (srv.postData s2 pageId attId filename fileBytes).1.text),
      (srv.postData s2 pageId attId filename fileBytes).2)

/-- The collision path of `upload_attachment_to_page` (lines 198-218):
look the existing attachment up by filename; on a 200 with a non-empty
result list continue with its first entry's id, otherwise raise the
find-existing-attachment exception (the spec's `ConsistencyError`). -/
def collisionPath {σ : Type} (srv : AttServer σ) (pageId filename : String)
    (fileBytes : List Nat) (s1 : σ) : Except PyErr AttachOutcome × σ :=
  if (srv.getByFilename s1 pageId filename).1.1.status = 200 then
    match (srv.getByFilename s1 pageId filename).1.2 with
    | att :: _ =>
      dataPath srv pageId att.id filename fileBytes
        (srv.getByFilename s1 pageId filename).2
    | [] =>
      (.error (.attachmentNotFound
          (srv.getByFilename s1 pageId filename).1.1.status
          (srv.getByFilename s1 pageId filename).1.1.text),
        (srv.getByFilename s1 pageId filename).2)
  else
    (.error (.attachmentNotFound
        (srv.getByFilename s1 pageId filename).1.1.status
        (srv.getByFilename s1 pageId filename).1.1.text),
      (srv.getByFilename s1 pageId filename).2)

/-- Embedding of `upload_attachment_to_page` (confluence_automation.py
lines 183-223): try the create POST; on a 400 whose body contains
"same file name" switch to the collision path; any other non-2xx status
raises; otherwise return the create response's JSON. -/
def upload_attachment_to_page {σ : Type} (srv : AttServer σ)
    (pageId filename : String) (fileBytes : List Nat) (s : σ) :
    Except PyErr AttachOutcome × σ :=
  if (srv.postNew s pageId filename fileBytes).1.status = 400 ∧
      containsSub "same file name".data
        (srv.postNew s pageId filename fileBytes).1.text.data = true then
    collisionPath srv pageId filename fileBytes
      (srv.postNew s pageId filename fileBytes).2
  else if ¬((srv.postNew s pageId filename fileBytes).1.status = 200 ∨
      (srv.postNew s pageId filename fileBytes).1.status = 201) then
    (.error (.uploadFailed (srv.postNew s pageId filename fileBytes).1.status
        (srv.postNew s pageId filename fileBytes).1.text),
      (srv.postNew s pageId filename fileBytes).2)
  else
    (.ok .created, (srv.postNew s pageId filename fileBytes).2)

/-- An attachment as the platform stores it: id, filename, binary
content, and version. -/
structure Attachment where
  id : String
  filename : String
  bytes : List Nat
  version : Nat
deriving DecidableEq

/-- Remote state of one page's attachments, with a counter supplying
fresh attachment ids. -/
structure ConfState where
  atts : List Attachment
  nextId : Nat
deriving DecidableEq

/-- In-place content update of the attachment with id `attId`:
preserves id and filename, replaces the bytes, bumps the version. -/
def updBytes (attId : String) (b : List Nat) (a : Attachment) : Attachment :=
  if a.id == attId then ⟨a.id, a.filename, b, a.version + 1⟩ else a

/-- Environment model of the platform's attachment endpoints, following
the spec's data model: at most one live attachment per (page, filename)
is enforced by rejecting a duplicate-name create with a 400 whose body
contains "same file name"; the lookup filters by filename; the data
endpoint updates the content in place. -/
def confluenceAttApi : AttServer ConfState :=
  { postNew := fun s _pageId filename bytes =>
      if s.atts.any (fun a => a.filename == filename) then
        (⟨400, "Cannot add a new attachment with same file name as an existing attachment"⟩, s)
      else
        (⟨200, "created"⟩,
          ⟨s.atts ++ [⟨"att" ++ toString s.nextId, filename, bytes, 1⟩], s.nextId + 1⟩),
    getByFilename := fun s _pageId filename =>
      ((⟨200, ""⟩,
        (s.atts.filter (fun a => a.filename == filename)).map (fun a => ⟨a.id⟩)), s),
    postData := fun s _pageId attId _filename bytes =>
      (⟨200, "updated"⟩, ⟨s.atts.map (updBytes attId bytes), s.nextId⟩) }

/-- Two successive `upload_attachment_to_page` calls for the same
(page, filename) against the platform model, with different bytes: the
two results and the final state. -/
def uploadTwice (s : ConfState) (pageId filename : String) (b1 b2 : List Nat) :
    Except PyErr AttachOutcome × Except PyErr AttachOutcome × ConfState :=
  ((upload_attachment_to_page confluenceAttApi pageId filename b1 s).1,
   (upload_attachment_to_page confluenceAttApi pageId filename b2
      (upload_attachment_to_page confluenceAttApi pageId filename b1 s).2).1,
   (upload_attachment_to_page confluenceAttApi pageId filename b2
      (upload_attachment_to_page confluenceAttApi pageId filename b1 s).2).2)

/-- A fixed-response attachment server: the create POST always reports
a duplicate-name 400, and the lookup always answers 200 with no
results. -/
def emptyLookupApi : AttServer Unit :=
  { postNew := fun s _ _ _ => (⟨400, "attachment with same file name exists"⟩, s),
    getByFilename := fun s _ _ => ((⟨200, "empty"⟩, []), s),
    postData := fun s _ _ _ _ => (⟨200, ""⟩, s) }

/-- The supported extensions of upload_ils_folder.py (lines 13-16):
CODE_EXTENSIONS ++ IMAGE_EXTENSIONS ++ OFFICE_EXTENSIONS. -/
def ALL_SUPPORTED_EXTENSIONS : List String :=
  [".ils", ".il", ".png", ".jpg", ".jpeg", ".gif", ".bmp",
   ".pptx", ".ppt", ".xlsx", ".xls", ".docx", ".doc"]

/-- The file filter of upload_ils_directory (line 144):
`f.lower().endswith(ALL_SUPPORTED_EXTENSIONS)`, on the underlying
character lists. -/
def isSupported (f : String) : Bool :=
  ALL_SUPPORTED_EXTENSIONS.any (fun e => e.data.isSuffixOf (f.data.map Char.toLower))

/-- The environment of one file's processing inside the batch loop:
the wrapper-page `new_page` call's responses, the page-id lookup's
response, the attachment endpoints' behaviour, the storage-format body
built for the file, and the file's bytes. -/
structure IlsFileEnv where
  pageEnv : NewPageEnv
  pageIdResp : LookupResp
  attApi : AttServer Unit
  childHtml : String
  fileBytes : List Nat

/-- Outcome of the attachment phase of one file (the try-block at
upload_ils_folder.py lines 175-195): the upload's result, the skip when
the looked-up page id is falsy (line 179), or the caught-and-printed
exception of line 194-195 (raised either by the page-id lookup or by
the attachment upload). -/
inductive AttachPhase where
  | uploaded (o : AttachOutcome) : AttachPhase
  | skippedNoId : AttachPhase
  | failed (e : PyErr) : AttachPhase
deriving DecidableEq

/-- What the batch loop records for one file: whether the wrapper-page
`new_page` call raised (caught by the `except: pass` at lines 168-172),
and the attachment phase's outcome. -/
structure FileOutcome where
  pageRaised : Bool
  attach : AttachPhase
deriving DecidableEq

/-- One iteration of the batch loop (upload_ils_folder.py lines
152-195): upsert the wrapper page under the directory page with any
exception caught and ignored, then look the page id up and upload the
attachment with any exception caught and printed. -/
def processIlsFile (cfg : Config) (fe : IlsFileEnv) (dirTitle filename : String) :
    FileOutcome :=
  { pageRaised :=
      match new_page filename fe.childHtml dirTitle cfg fe.pageEnv with
      | .ok _ => false
      | .error _ => true,
    attach :=
      match get_page_id_by_title filename cfg fe.pageIdResp with
      | .error e => .failed e
      | .ok pid =>
        if pid = "" then
          .skippedNoId
        else
          match (upload_attachment_to_page fe.attApi pid filename fe.fileBytes ()).1 with
          | .error e => .failed e
          | .ok o => .uploaded o }

/-- The observable outcome of a directory upload: the outcome of each
processed file, in directory order. -/
structure BatchResult where
  perFile : List (String × FileOutcome)
deriving DecidableEq

/-- Embedding of `upload_ils_directory` (upload_ils_folder.py lines
93-197): upsert the section page under the global parent and the
directory page under it (a raise in either aborts the batch — in this
embedding `new_page` never raises, matching the source), filter the
directory listing down to supported files, and run the per-file loop. -/
def upload_ils_directory (cfg : Config)
    (globalParent sectionTitle dirTitle sectionContent containerContent : String)
    (listing : List String) (sectionEnv dirEnv : NewPageEnv)
    (fileEnvs : String → IlsFileEnv) : BatchResult :=
  match new_page sectionTitle sectionContent globalParent cfg sectionEnv with
  | .error _ => ⟨[]⟩
  | .ok _ =>
    match new_page dirTitle containerContent sectionTitle cfg dirEnv with
    | .error _ => ⟨[]⟩
    | .ok _ =>
      if (listing.filter (fun f => isSupported f)) = [] then ⟨[]⟩
      else
        ⟨(listing.filter (fun f => isSupported f)).map
          (fun f => (f, processIlsFile cfg (fileEnvs f) dirTitle f))⟩

/-- The CDATA end sequence "]]>" whose occurrences the scripts escape
(upload_ils.py line 41, upload_ils_folder.py line 41). -/
def cdataCloser : List Char := [']', ']', '>']

/-- The nine characters opening a CDATA section. -/
def cdataOpener : List Char := ['<', '!', '[', 'C', 'D', 'A', 'T', 'A', '[']

/-- The replacement text "]]]]><![CDATA[>" written for each occurrence
of the end sequence. -/
def cdataEscSeq : List Char :=
  [']', ']', ']', ']', '>', '<', '!', '[', 'C', 'D', 'A', 'T', 'A', '[', '>']

/-- Embedding of `content.replace(']]>', ']]]]><![CDATA[>')`: Python's
`str.replace` substitutes the leftmost occurrence and resumes scanning
after the replacement, which this left-to-right scan reproduces. -/
def cdataEscape : List Char → List Char
  | [] => []
  | [c] => [c]
  | [c1, c2] => [c1, c2]
  | c1 :: c2 :: c3 :: rest =>
    if c1 = ']' ∧ c2 = ']' ∧ c3 = '>' then
      cdataEscSeq ++ cdataEscape rest
    else
      c1 :: cdataEscape (c2 :: c3 :: rest)

/-- The storage-format parser's scan of CDATA character data: consume
characters up to the first "]]>", returning the content before it and
the remainder after it; `none` when no end sequence follows. -/
def scanContent : List Char → Option (List Char × List Char)
  | [] => none
  | [_] => none
  | [_, _] => none
  | c1 :: c2 :: c3 :: rest =>
    if c1 = ']' ∧ c2 = ']' ∧ c3 = '>' then
      some ([], rest)
    else
      (scanContent (c2 :: c3 :: rest)).map (fun p => (c1 :: p.1, p.2))

/-- Parse a sequence of `<![CDATA[ ... ]]>` sections and return the
concatenation of their character data; the first argument is fuel
bounding the number of sections. -/
def decodeSections : Nat → List Char → Option (List Char)
  | _, [] => some []
  | 0, _ :: _ => none
  | fuel + 1, c :: rest =>
    if cdataOpener.isPrefixOf (c :: rest) then
      match scanContent ((c :: rest).drop 9) with
      | some p => (decodeSections fuel p.2).map (fun d => p.1 ++ d)
      | none => none
    else none

/-- The storage-format CDATA decoder: parse the text as a sequence of
CDATA sections and concatenate their contents. -/
def cdataDecode (l : List Char) : Option (List Char) :=
  decodeSections l.length l

/-- Continuation applied to a scan result while decoding: decode the
remainder and prepend the scanned content. -/
def decodeAfterScan (x : Option (List Char × List Char)) : Option (List Char) :=
  match x with
  | some p => (cdataDecode p.2).map (fun d => p.1 ++ d)
  | none => none

/-- C7: for every title, `get_page_id_by_title` on a successful,
well-formed lookup response (status 200, JSON body whose `size` equals
the length of `results`) raises the no-page-found error exactly when the
result set is empty, and otherwise returns the id of the first match; in
particular zero results never produce a silent normal return. -/
theorem get_page_id_by_title_notFound_iff (title : String) (cfg : Config)
    (resp : LookupResp) (hb : cfg.baseUrl ≠ "") (hs : cfg.spaceKey ≠ "")
    (hstatus : resp.status = 200) (data : SearchData)
    (hjson : resp.json = some data) (hwf : data.size = data.results.length) :
    (get_page_id_by_title title cfg resp =
        .error (.noPageFound title cfg.spaceKey) ↔ data.results = []) ∧
    (∀ r rest, data.results = r :: rest →
        get_page_id_by_title title cfg resp = .ok r.id) := by
  obtain ⟨st, tx, js⟩ := resp
  dsimp only at hstatus hjson
  subst hstatus
  subst hjson
  constructor
  · cases hres : data.results with
    | nil => simp [get_page_id_by_title, hb, hs, hwf, hres]
    | cons r rest => simp [get_page_id_by_title, hb, hs, hwf, hres]
  · intro r rest hres
    simp [get_page_id_by_title, hb, hs, hwf, hres]

/-- Concrete instance of `get_page_id_by_title_notFound_iff`: with one
result the lookup returns its id. -/
theorem get_page_id_by_title_notFound_iff_witness :
    get_page_id_by_title "Parent" ⟨"http://conf", "SP"⟩
        ⟨200, "", some ⟨1, [⟨"42", [], 1⟩]⟩⟩ = .ok "42" :=
  (get_page_id_by_title_notFound_iff "Parent" ⟨"http://conf", "SP"⟩
      ⟨200, "", some ⟨1, [⟨"42", [], 1⟩]⟩⟩ (by decide) (by decide) rfl
      ⟨1, [⟨"42", [], 1⟩]⟩ rfl rfl).2 ⟨"42", [], 1⟩ [] rfl

theorem updateBranch_writes (title content : String) (cfg : Config)
    (env : NewPageEnv) (parentId : String) (r : PageResult) :
    (updateBranch title content cfg env parentId r).writes =
      [updateReq title content cfg parentId r] := by
  unfold updateBranch
  split <;> rfl

theorem createBranch_writes (title content : String) (cfg : Config)
    (env : NewPageEnv) (parentId : String) :
    (createBranch title content cfg env parentId).writes =
      [createReq title content cfg parentId] := by
  unfold createBranch
  split <;> rfl

theorem new_page_eq_update (title content parent : String) (cfg : Config)
    (env : NewPageEnv) (pa : String) (r : PageResult)
    (hpa : get_page_id_by_title parent cfg env.parentResp = .ok pa)
    (hst : env.existResp.status = 200)
    (hft : findTarget env.existResp.results pa = some r) :
    new_page title content parent cfg env =
      .ok (updateBranch title content cfg env pa r) := by
  unfold new_page
  rw [hpa]
  simp [hst, hft]

theorem new_page_eq_create_of_no_target (title content parent : String)
    (cfg : Config) (env : NewPageEnv) (pa : String)
    (hpa : get_page_id_by_title parent cfg env.parentResp = .ok pa)
    (hst : env.existResp.status = 200)
    (hft : findTarget env.existResp.results pa = none) :
    new_page title content parent cfg env =
      .ok (createBranch title content cfg env pa) := by
  unfold new_page
  rw [hpa]
  simp [hst, hft]

theorem new_page_eq_create_of_bad_status (title content parent : String)
    (cfg : Config) (env : NewPageEnv) (pa : String)
    (hpa : get_page_id_by_title parent cfg env.parentResp = .ok pa)
    (hst : env.existResp.status ≠ 200) :
    new_page title content parent cfg env =
      .ok (createBranch title content cfg env pa) := by
  unfold new_page
  rw [hpa]
  simp [hst]

/-- C1: when the parent title resolves to `pa`, every PUT issued by
`new_page` targets a candidate of the existence query whose last
ancestor id equals `pa`; consequently (when candidates have distinct
ids) a same-titled page whose direct parent is some other page `pb ≠ pa`
is never the target of the PUT. -/
theorem new_page_parent_filter (title content parent : String) (cfg : Config)
    (env : NewPageEnv) (pa : String)
    (hpa : get_page_id_by_title parent cfg env.parentResp = .ok pa)
    (hnodup : (env.existResp.results.map (·.id)).Nodup)
    (run : NewPageRun) (hrun : new_page title content parent cfg env = .ok run)
    (pid : String) (payload : PagePayload)
    (hmem : WriteReq.put pid payload ∈ run.writes) :
    (∃ r ∈ env.existResp.results,
        r.id = pid ∧ r.ancestorIds.getLast? = some pa) ∧
    (∀ b ∈ env.existResp.results, ∀ pb,
        b.ancestorIds.getLast? = some pb → pb ≠ pa → pid ≠ b.id) := by
  by_cases hst : env.existResp.status = 200
  · cases hft : findTarget env.existResp.results pa with
    | none =>
      rw [new_page_eq_create_of_no_target title content parent cfg env pa hpa hst hft]
        at hrun
      injection hrun with hrun
      subst hrun
      rw [createBranch_writes] at hmem
      simp [createReq] at hmem
    | some r =>
      rw [new_page_eq_update title content parent cfg env pa r hpa hst hft] at hrun
      injection hrun with hrun
      subst hrun
      rw [updateBranch_writes] at hmem
      simp only [List.mem_singleton, updateReq] at hmem
      injection hmem with h1 h2
      subst h1
      unfold findTarget at hft
      have hmemr : r ∈ env.existResp.results := List.mem_of_find?_eq_some hft
      have hlast : r.ancestorIds.getLast? = some pa := by
        have hprop := List.find?_some hft
        simpa using hprop
      refine ⟨⟨r, hmemr, rfl, hlast⟩, ?_⟩
      intro b hb pb hblast hne heq
      have : r = b := List.inj_on_of_nodup_map hnodup hmemr hb heq
      subst this
      rw [hlast] at hblast
      injection hblast with h
      exact hne h.symm
  · rw [new_page_eq_create_of_bad_status title content parent cfg env pa hpa hst] at hrun
    injection hrun with hrun
    subst hrun
    rw [createBranch_writes] at hmem
    simp [createReq] at hmem

/-- Concrete instance of `new_page_parent_filter`: with two same-titled
pages under distinct parents "A" (id pA) and "B" (id pB), the PUT
issued when targeting parent "A" goes to the page under "A" and not to
the page under "B". -/
theorem new_page_parent_filter_witness :
    (∃ r ∈ [PageResult.mk "under-A" ["root", "pA"] 4,
            PageResult.mk "under-B" ["root", "pB"] 7],
        r.id = "under-A" ∧ r.ancestorIds.getLast? = some "pA") ∧
    (∀ b ∈ [PageResult.mk "under-A" ["root", "pA"] 4,
            PageResult.mk "under-B" ["root", "pB"] 7], ∀ pb,
        b.ancestorIds.getLast? = some pb → pb ≠ "pA" → "under-A" ≠ b.id) :=
  new_page_parent_filter "Same Title" "body" "A" ⟨"http://conf", "SP"⟩
    ⟨⟨200, "", some ⟨1, [⟨"pA", [], 1⟩]⟩⟩,
     ⟨200, [⟨"under-A", ["root", "pA"], 4⟩, ⟨"under-B", ["root", "pB"], 7⟩]⟩,
     fun _ => ⟨200, "", "/x"⟩⟩ "pA" rfl (by decide)
    ⟨[.put "under-A" ⟨some "under-A", "Same Title", ["pA"], "SP", "body", some 5⟩],
     [.pageUpdated, .url "http://conf/x"]⟩ rfl "under-A"
    ⟨some "under-A", "Same Title", ["pA"], "SP", "body", some 5⟩ (by decide)

/-- C2: when the existence query succeeds and some candidate's last
ancestor id equals the resolved parent id, `new_page` issues exactly one
write: a PUT to the selected candidate (the first match) whose declared
version is that candidate's version number plus 1, and no POST. -/
theorem new_page_update_version (title content parent : String) (cfg : Config)
    (env : NewPageEnv) (pa : String)
    (hpa : get_page_id_by_title parent cfg env.parentResp = .ok pa)
    (hst : env.existResp.status = 200)
    (hexist : ∃ c ∈ env.existResp.results, c.ancestorIds.getLast? = some pa) :
    ∃ c ∈ env.existResp.results,
      findTarget env.existResp.results pa = some c ∧
      c.ancestorIds.getLast? = some pa ∧
      ∃ run, new_page title content parent cfg env = .ok run ∧
        run.writes = [WriteReq.put c.id ⟨some c.id, title, [pa], cfg.spaceKey,
          content, some (c.versionNumber + 1)⟩] ∧
        ∀ pl, WriteReq.post pl ∉ run.writes := by
  obtain ⟨c, hc, hlast⟩ := hexist
  have hsome : (findTarget env.existResp.results pa).isSome := by
    unfold findTarget
    rw [List.find?_isSome]
    exact ⟨c, hc, by simp [hlast]⟩
  obtain ⟨c0, hft⟩ := Option.isSome_iff_exists.mp hsome
  have hmemc0 : c0 ∈ env.existResp.results := by
    unfold findTarget at hft
    exact List.mem_of_find?_eq_some hft
  have hlast0 : c0.ancestorIds.getLast? = some pa := by
    unfold findTarget at hft
    have hprop := List.find?_some hft
    simpa using hprop
  refine ⟨c0, hmemc0, hft, hlast0, updateBranch title content cfg env pa c0,
    new_page_eq_update title content parent cfg env pa c0 hpa hst hft, ?_, ?_⟩
  · rw [updateBranch_writes]
    rfl
  · intro pl hmem
    rw [updateBranch_writes] at hmem
    simp [updateReq] at hmem

/-- Concrete instance of `new_page_update_version`: one candidate at
version 3 under the resolved parent yields a single PUT declaring
version 4. -/
theorem new_page_update_version_witness :
    ∃ c ∈ [PageResult.mk "p9" ["root", "pa1"] 3],
      findTarget [PageResult.mk "p9" ["root", "pa1"] 3] "pa1" = some c ∧
      c.ancestorIds.getLast? = some "pa1" ∧
      ∃ run, new_page "T" "B" "Parent" ⟨"http://conf", "SP"⟩
          ⟨⟨200, "", some ⟨1, [⟨"pa1", [], 1⟩]⟩⟩,
           ⟨200, [⟨"p9", ["root", "pa1"], 3⟩]⟩,
           fun _ => ⟨200, "", "/x"⟩⟩ = .ok run ∧
        run.writes = [WriteReq.put c.id ⟨some c.id, "T", ["pa1"], "SP",
          "B", some (c.versionNumber + 1)⟩] ∧
        ∀ pl, WriteReq.post pl ∉ run.writes :=
  new_page_update_version "T" "B" "Parent" ⟨"http://conf", "SP"⟩
    ⟨⟨200, "", some ⟨1, [⟨"pa1", [], 1⟩]⟩⟩,
     ⟨200, [⟨"p9", ["root", "pa1"], 3⟩]⟩,
     fun _ => ⟨200, "", "/x"⟩⟩ "pa1" rfl rfl
    ⟨⟨"p9", ["root", "pa1"], 3⟩, by decide, by decide⟩

/-- C3: when the existence query succeeds and no candidate's last
ancestor id equals the resolved parent id, `new_page` issues exactly one
write: a POST whose payload has the single-element ancestor list
`[parentId]`, and no PUT. -/
theorem new_page_creates_when_no_match (title content parent : String)
    (cfg : Config) (env : NewPageEnv) (pa : String)
    (hpa : get_page_id_by_title parent cfg env.parentResp = .ok pa)
    (hst : env.existResp.status = 200)
    (hnone : ∀ c ∈ env.existResp.results, c.ancestorIds.getLast? ≠ some pa) :
    ∃ run, new_page title content parent cfg env = .ok run ∧
      run.writes = [WriteReq.post ⟨none, title, [pa], cfg.spaceKey, content, none⟩] ∧
      ∀ pid pl, WriteReq.put pid pl ∉ run.writes := by
  have hft : findTarget env.existResp.results pa = none := by
    unfold findTarget
    rw [List.find?_eq_none]
    intro c hc
    simpa using hnone c hc
  refine ⟨createBranch title content cfg env pa,
    new_page_eq_create_of_no_target title content parent cfg env pa hpa hst hft,
    ?_, ?_⟩
  · rw [createBranch_writes]
    rfl
  · intro pid pl hmem
    rw [createBranch_writes] at hmem
    simp [createReq] at hmem

/-- Concrete instance of `new_page_creates_when_no_match`: the only
same-titled candidate lives under a different parent, so a single POST
with ancestor list `["pa1"]` is issued. -/
theorem new_page_creates_when_no_match_witness :
    ∃ run, new_page "T" "B" "Parent" ⟨"http://conf", "SP"⟩
        ⟨⟨200, "", some ⟨1, [⟨"pa1", [], 1⟩]⟩⟩,
         ⟨200, [⟨"under-B", ["root", "pb2"], 7⟩]⟩,
         fun _ => ⟨201, "", "/x"⟩⟩ = .ok run ∧
      run.writes = [WriteReq.post ⟨none, "T", ["pa1"], "SP", "B", none⟩] ∧
      ∀ pid pl, WriteReq.put pid pl ∉ run.writes :=
  new_page_creates_when_no_match "T" "B" "Parent" ⟨"http://conf", "SP"⟩
    ⟨⟨200, "", some ⟨1, [⟨"pa1", [], 1⟩]⟩⟩,
     ⟨200, [⟨"under-B", ["root", "pb2"], 7⟩]⟩,
     fun _ => ⟨201, "", "/x"⟩⟩ "pa1" rfl rfl (by decide)

/-- C10: when the existence-check GET returns a non-200 status,
`new_page` signals no error: it returns normally and proceeds down the
create path, issuing the POST as if the page did not exist. -/
theorem new_page_bad_check_status_creates (title content parent : String)
    (cfg : Config) (env : NewPageEnv) (pa : String)
    (hpa : get_page_id_by_title parent cfg env.parentResp = .ok pa)
    (hst : env.existResp.status ≠ 200) :
    ∃ run, new_page title content parent cfg env = .ok run ∧
      run.writes = [WriteReq.post ⟨none, title, [pa], cfg.spaceKey, content, none⟩] := by
  refine ⟨createBranch title content cfg env pa,
    new_page_eq_create_of_bad_status title content parent cfg env pa hpa hst, ?_⟩
  rw [createBranch_writes]
  rfl

/-- Concrete instance of `new_page_bad_check_status_creates`: a 500 on
the existence check still leads to a normal return and a create POST. -/
theorem new_page_bad_check_status_creates_witness :
    ∃ run, new_page "T" "B" "Parent" ⟨"http://conf", "SP"⟩
        ⟨⟨200, "", some ⟨1, [⟨"pa1", [], 1⟩]⟩⟩,
         ⟨500, [⟨"p9", ["root", "pa1"], 3⟩]⟩,
         fun _ => ⟨201, "", "/x"⟩⟩ = .ok run ∧
      run.writes = [WriteReq.post ⟨none, "T", ["pa1"], "SP", "B", none⟩] :=
  new_page_bad_check_status_creates "T" "B" "Parent" ⟨"http://conf", "SP"⟩
    ⟨⟨200, "", some ⟨1, [⟨"pa1", [], 1⟩]⟩⟩,
     ⟨500, [⟨"p9", ["root", "pa1"], 3⟩]⟩,
     fun _ => ⟨201, "", "/x"⟩⟩ "pa1" rfl (by decide)

/-- C4 is false as stated: here the update PUT fails with status 409,
yet `new_page` signals nothing to its caller — it returns normally
(`.ok`, no exception) having only printed the failure notice, the
status code and the response body, and it returns no page reference. -/
theorem new_page_no_error_signal_cex :
    (conflictEnv.writeResp (updateReq "T" "B" ⟨"http://conf", "SP"⟩ "pa1"
        ⟨"p9", ["root", "pa1"], 3⟩)).status = 409 ∧
    new_page "T" "B" "Parent" ⟨"http://conf", "SP"⟩ conflictEnv =
      .ok ⟨[updateReq "T" "B" ⟨"http://conf", "SP"⟩ "pa1" ⟨"p9", ["root", "pa1"], 3⟩],
        [.failedUpdate, .statusCode 409, .responseBody "Version conflict"]⟩ := by
  constructor <;> rfl

/-- C4 (amended): `new_page` never raises on a write outcome.  On a
failed write (status other than 200 for an update; other than 200 and
201 for a create) it returns normally after printing the failure
notice, the status code and the response body; on a successful write it
returns normally after printing the success notice and the
web-viewable URL (base URL ++ webui link).  No page reference is
returned in either case. -/
theorem new_page_write_outcome (title content parent : String) (cfg : Config)
    (env : NewPageEnv) (pa : String)
    (hpa : get_page_id_by_title parent cfg env.parentResp = .ok pa) :
    (∀ r, env.existResp.status = 200 →
      findTarget env.existResp.results pa = some r →
      ((env.writeResp (updateReq title content cfg pa r)).status ≠ 200 →
        new_page title content parent cfg env = .ok
          ⟨[updateReq title content cfg pa r],
           [.failedUpdate,
            .statusCode (env.writeResp (updateReq title content cfg pa r)).status,
            .responseBody (env.writeResp (updateReq title content cfg pa r)).text]⟩) ∧
      ((env.writeResp (updateReq title content cfg pa r)).status = 200 →
        new_page title content parent cfg env = .ok
          ⟨[updateReq title content cfg pa r],
           [.pageUpdated,
            .url (cfg.baseUrl ++
              (env.writeResp (updateReq title content cfg pa r)).webui)]⟩)) ∧
    ((if env.existResp.status = 200 then
        findTarget env.existResp.results pa
      else none) = none →
      (¬((env.writeResp (createReq title content cfg pa)).status = 200 ∨
          (env.writeResp (createReq title content cfg pa)).status = 201) →
        new_page title content parent cfg env = .ok
          ⟨[createReq title content cfg pa],
           [.failedCreate,
            .statusCode (env.writeResp (createReq title content cfg pa)).status,
            .responseBody (env.writeResp (createReq title content cfg pa)).text]⟩) ∧
      (((env.writeResp (createReq title content cfg pa)).status = 200 ∨
          (env.writeResp (createReq title content cfg pa)).status = 201) →
        new_page title content parent cfg env = .ok
          ⟨[createReq title content cfg pa],
           [.pageCreated,
            .url (cfg.baseUrl ++
              (env.writeResp (createReq title content cfg pa)).webui)]⟩)) := by
  constructor
  · intro r hst hft
    have heq := new_page_eq_update title content parent cfg env pa r hpa hst hft
    constructor
    · intro hfail
      rw [heq]
      unfold updateBranch
      rw [if_neg hfail]
    · intro hok
      rw [heq]
      unfold updateBranch
      rw [if_pos hok]
  · intro hnone
    have heq : new_page title content parent cfg env =
        .ok (createBranch title content cfg env pa) := by
      by_cases hst : env.existResp.status = 200
      · rw [if_pos hst] at hnone
        exact new_page_eq_create_of_no_target title content parent cfg env pa hpa
          hst hnone
      · exact new_page_eq_create_of_bad_status title content parent cfg env pa hpa hst
    constructor
    · intro hfail
      rw [heq]
      unfold createBranch
      rw [if_neg hfail]
    · intro hok
      rw [heq]
      unfold createBranch
      rw [if_pos hok]

/-- Concrete instance of `new_page_write_outcome`: a successful update
PUT ends in a normal return that prints the web URL. -/
theorem new_page_write_outcome_witness :
    new_page "T" "B" "Parent" ⟨"http://conf", "SP"⟩
        ⟨⟨200, "", some ⟨1, [⟨"pa1", [], 1⟩]⟩⟩,
         ⟨200, [⟨"p9", ["root", "pa1"], 3⟩]⟩,
         fun _ => ⟨200, "ok", "/view9"⟩⟩ =
      .ok ⟨[updateReq "T" "B" ⟨"http://conf", "SP"⟩ "pa1" ⟨"p9", ["root", "pa1"], 3⟩],
        [.pageUpdated, .url ("http://conf" ++ "/view9")]⟩ :=
  ((new_page_write_outcome "T" "B" "Parent" ⟨"http://conf", "SP"⟩
      ⟨⟨200, "", some ⟨1, [⟨"pa1", [], 1⟩]⟩⟩,
       ⟨200, [⟨"p9", ["root", "pa1"], 3⟩]⟩,
       fun _ => ⟨200, "ok", "/view9"⟩⟩ "pa1" rfl).1
    ⟨"p9", ["root", "pa1"], 3⟩ rfl rfl).2 rfl

theorem updBytes_filename (attId : String) (b : List Nat) (a : Attachment) :
    (updBytes attId b a).filename = a.filename := by
  unfold updBytes
  split <;> rfl

theorem updBytes_id (attId : String) (b : List Nat) (a : Attachment) :
    (updBytes attId b a).id = a.id := by
  unfold updBytes
  split <;> rfl

theorem upload_att_absent (s : ConfState) (pageId filename : String)
    (b : List Nat) (hc : ∀ a ∈ s.atts, a.filename ≠ filename) :
    upload_attachment_to_page confluenceAttApi pageId filename b s =
      (.ok .created,
        ⟨s.atts ++ [⟨"att" ++ toString s.nextId, filename, b, 1⟩], s.nextId + 1⟩) := by
  have hany : (s.atts.any fun a => a.filename == filename) = false := by
    rw [List.any_eq_false]
    intro a ha
    simpa using hc a ha
  have hnot : ¬((s.atts.any fun a => a.filename == filename) = true) := by
    simp [hany]
  have hpost : confluenceAttApi.postNew s pageId filename b =
      (⟨200, "created"⟩,
        ⟨s.atts ++ [⟨"att" ++ toString s.nextId, filename, b, 1⟩], s.nextId + 1⟩) := by
    simp only [confluenceAttApi]
    rw [if_neg hnot]
  unfold upload_attachment_to_page
  rw [hpost]
  dsimp only
  rw [if_neg (by simp), if_neg (by simp)]

theorem upload_att_present (s : ConfState) (pageId filename : String)
    (b : List Nat) (a0 : Attachment)
    (hf : s.atts.filter (fun a => a.filename == filename) = [a0]) :
    upload_attachment_to_page confluenceAttApi pageId filename b s =
      (.ok (.updated a0.id), ⟨s.atts.map (updBytes a0.id b), s.nextId⟩) := by
  have ha0 : a0 ∈ s.atts ∧ a0.filename = filename := by
    have hmem : a0 ∈ s.atts.filter (fun a => a.filename == filename) := by
      rw [hf]
      exact List.mem_singleton.mpr rfl
    have h2 := List.mem_filter.mp hmem
    exact ⟨h2.1, by simpa using h2.2⟩
  have hany : (s.atts.any fun a => a.filename == filename) = true := by
    rw [List.any_eq_true]
    exact ⟨a0, ha0.1, by simpa using ha0.2⟩
  have hsub : containsSub "same file name".data
      "Cannot add a new attachment with same file name as an existing attachment".data
        = true := by decide
  have hpost : confluenceAttApi.postNew s pageId filename b =
      (⟨400, "Cannot add a new attachment with same file name as an existing attachment"⟩,
        s) := by
    simp only [confluenceAttApi]
    rw [if_pos hany]
  have hget : confluenceAttApi.getByFilename s pageId filename =
      ((⟨200, ""⟩, [⟨a0.id⟩]), s) := by
    simp only [confluenceAttApi]
    rw [hf]
    rfl
  have hdata : confluenceAttApi.postData s pageId a0.id filename b =
      (⟨200, "updated"⟩, ⟨s.atts.map (updBytes a0.id b), s.nextId⟩) := by
    simp only [confluenceAttApi]
  have hcond : 400 = 400 ∧ containsSub "same file name".data
      "Cannot add a new attachment with same file name as an existing attachment".data
        = true := ⟨rfl, hsub⟩
  unfold upload_attachment_to_page
  rw [hpost]
  dsimp only
  rw [if_pos hcond]
  unfold collisionPath
  rw [hget]
  dsimp only
  rw [if_pos rfl]
  unfold dataPath
  rw [hdata]
  dsimp only
  rw [if_pos (Or.inl rfl)]

theorem filter_filename_singleton (l : List Attachment) (f : String)
    (hnd : (l.map (·.filename)).Nodup) (a : Attachment) (ha : a ∈ l)
    (haf : a.filename = f) :
    l.filter (fun x => x.filename == f) = [a] := by
  induction l with
  | nil => cases ha
  | cons c rest ih =>
    rw [List.map_cons, List.nodup_cons] at hnd
    cases List.mem_cons.mp ha with
    | inl hac =>
      subst hac
      rw [List.filter_cons_of_pos (by simpa using haf)]
      have hrest : rest.filter (fun x => x.filename == f) = [] := by
        rw [List.filter_eq_nil_iff]
        intro b hb hbf
        apply hnd.1
        have hbf' : b.filename = f := by simpa using hbf
        have hab : a.filename = b.filename := by rw [haf, hbf']
        rw [hab]
        exact List.mem_map_of_mem (·.filename) hb
      rw [hrest]
    | inr har =>
      have hcf : c.filename ≠ f := by
        intro hcf
        apply hnd.1
        have hca : c.filename = a.filename := by rw [hcf, haf]
        rw [hca]
        exact List.mem_map_of_mem (·.filename) har
      rw [List.filter_cons_of_neg (by simpa using hcf)]
      exact ih hnd.2 har

theorem map_updBytes_filenames (l : List Attachment) (i : String) (b : List Nat) :
    (l.map (updBytes i b)).map (·.filename) = l.map (·.filename) := by
  induction l with
  | nil => rfl
  | cons a rest ih => simp [updBytes_filename, ih]

theorem second_upload_state (l : List Attachment) (n : Nat)
    (pageId filename : String) (b2 : List Nat) (aStar : Attachment)
    (hnd1 : (l.map (·.filename)).Nodup)
    (hf1 : l.filter (fun x => x.filename == filename) = [aStar]) :
    upload_attachment_to_page confluenceAttApi pageId filename b2 ⟨l, n⟩ =
      (.ok (.updated aStar.id), ⟨l.map (updBytes aStar.id b2), n⟩) ∧
    (l.map (updBytes aStar.id b2)).filter (fun x => x.filename == filename) =
      [⟨aStar.id, aStar.filename, b2, aStar.version + 1⟩] := by
  have hmemf : aStar ∈ l.filter (fun x => x.filename == filename) := by
    rw [hf1]
    exact List.mem_singleton.mpr rfl
  have hmem : aStar ∈ l := (List.mem_filter.mp hmemf).1
  have haf : aStar.filename = filename := by
    simpa using (List.mem_filter.mp hmemf).2
  constructor
  · exact upload_att_present ⟨l, n⟩ pageId filename b2 aStar hf1
  · have hndm : ((l.map (updBytes aStar.id b2)).map (·.filename)).Nodup := by
      rw [map_updBytes_filenames]
      exact hnd1
    have hmemm : updBytes aStar.id b2 aStar ∈ l.map (updBytes aStar.id b2) :=
      List.mem_map_of_mem (updBytes aStar.id b2) hmem
    have hsingle := filter_filename_singleton (l.map (updBytes aStar.id b2)) filename
      hndm (updBytes aStar.id b2 aStar) hmemm
      (by rw [updBytes_filename]; exact haf)
    rw [hsingle]
    have : updBytes aStar.id b2 aStar =
        ⟨aStar.id, aStar.filename, b2, aStar.version + 1⟩ := by
      simp [updBytes]
    rw [this]

/-- C5: against the platform model, two successive attachment upserts
for the same (page, filename) with different bytes leave exactly one
live attachment for that filename; the second call takes the collision
path and posts the new bytes to the data endpoint of an attachment that
was already live after the first call, so the surviving attachment has
the second call's bytes and the preserved id and filename. -/
theorem upload_attachment_twice (s : ConfState) (pageId filename : String)
    (b1 b2 : List Nat) (hnd : (s.atts.map (·.filename)).Nodup) :
    ∃ aId,
      (uploadTwice s pageId filename b1 b2).2.1 = .ok (.updated aId) ∧
      (∃ a1 ∈ (upload_attachment_to_page confluenceAttApi pageId filename b1 s).2.atts,
          a1.filename = filename ∧ a1.id = aId) ∧
      ((uploadTwice s pageId filename b1 b2).2.2.atts.filter
          (fun a => a.filename == filename)).length = 1 ∧
      ∀ a ∈ (uploadTwice s pageId filename b1 b2).2.2.atts, a.filename = filename →
        a.bytes = b2 ∧ a.id = aId := by
  by_cases hc : ∃ a ∈ s.atts, a.filename = filename
  · obtain ⟨a0, ha0, haf⟩ := hc
    have hf := filter_filename_singleton s.atts filename hnd a0 ha0 haf
    have h1 := upload_att_present s pageId filename b1 a0 hf
    have hnd1 : ((s.atts.map (updBytes a0.id b1)).map (·.filename)).Nodup := by
      rw [map_updBytes_filenames]
      exact hnd
    have hmem1 : updBytes a0.id b1 a0 ∈ s.atts.map (updBytes a0.id b1) :=
      List.mem_map_of_mem (updBytes a0.id b1) ha0
    have hf1 := filter_filename_singleton (s.atts.map (updBytes a0.id b1)) filename
      hnd1 (updBytes a0.id b1 a0) hmem1 (by rw [updBytes_filename]; exact haf)
    obtain ⟨h2, hfilt2⟩ := second_upload_state (s.atts.map (updBytes a0.id b1))
      s.nextId pageId filename b2 (updBytes a0.id b1 a0) hnd1 hf1
    refine ⟨(updBytes a0.id b1 a0).id, ?_, ?_, ?_, ?_⟩
    · unfold uploadTwice
      rw [h1]
      dsimp only
      rw [h2]
    · rw [h1]
      exact ⟨updBytes a0.id b1 a0, hmem1,
        by rw [updBytes_filename]; exact haf, rfl⟩
    · unfold uploadTwice
      rw [h1]
      dsimp only
      rw [h2]
      dsimp only
      rw [hfilt2]
      rfl
    · unfold uploadTwice
      rw [h1]
      dsimp only
      rw [h2]
      dsimp only
      intro a ha hafn
      have hmf : a ∈ List.filter (fun x => x.filename == filename)
          (List.map (updBytes (updBytes a0.id b1 a0).id b2)
            (List.map (updBytes a0.id b1) s.atts)) :=
        List.mem_filter.mpr ⟨ha, by simpa using hafn⟩
      rw [hfilt2] at hmf
      have := List.mem_singleton.mp hmf
      rw [this]
      exact ⟨rfl, rfl⟩
  · push_neg at hc
    have h1 := upload_att_absent s pageId filename b1 hc
    have hnd1 : ((s.atts ++
        [(⟨"att" ++ toString s.nextId, filename, b1, 1⟩ : Attachment)]).map
        (·.filename)).Nodup := by
      rw [List.map_append]
      rw [List.nodup_append]
      refine ⟨hnd, List.nodup_singleton filename, ?_⟩
      intro x hx hx1
      have hx1' : x = filename := by simpa using hx1
      subst hx1'
      obtain ⟨b, hb, hbf⟩ := List.mem_map.mp hx
      exact hc b hb hbf
    have hmem1 : (⟨"att" ++ toString s.nextId, filename, b1, 1⟩ : Attachment) ∈
        s.atts ++ [⟨"att" ++ toString s.nextId, filename, b1, 1⟩] := by
      simp
    have hf1 := filter_filename_singleton
      (s.atts ++ [⟨"att" ++ toString s.nextId, filename, b1, 1⟩]) filename hnd1
      ⟨"att" ++ toString s.nextId, filename, b1, 1⟩ hmem1 rfl
    obtain ⟨h2, hfilt2⟩ := second_upload_state
      (s.atts ++ [⟨"att" ++ toString s.nextId, filename, b1, 1⟩]) (s.nextId + 1)
      pageId filename b2 ⟨"att" ++ toString s.nextId, filename, b1, 1⟩ hnd1 hf1
    dsimp only at h2 hfilt2
    refine ⟨"att" ++ toString s.nextId, ?_, ?_, ?_, ?_⟩
    · unfold uploadTwice
      rw [h1]
      dsimp only
      rw [h2]
    · rw [h1]
      exact ⟨⟨"att" ++ toString s.nextId, filename, b1, 1⟩, hmem1, rfl, rfl⟩
    · unfold uploadTwice
      rw [h1]
      dsimp only
      rw [h2]
      dsimp only
      rw [hfilt2]
      rfl
    · unfold uploadTwice
      rw [h1]
      dsimp only
      rw [h2]
      dsimp only
      intro a ha hafn
      have hmf : a ∈ List.filter (fun x => x.filename == filename)
          (List.map (updBytes ("att" ++ toString s.nextId) b2)
            (s.atts ++ [(⟨"att" ++ toString s.nextId, filename, b1, 1⟩ : Attachment)])) :=
        List.mem_filter.mpr ⟨ha, by simpa using hafn⟩
      rw [hfilt2] at hmf
      have := List.mem_singleton.mp hmf
      rw [this]
      exact ⟨rfl, rfl⟩

/-- Concrete instance of `upload_attachment_twice`: starting from a page
with no attachments, uploading bytes [1] then [2] under the same
filename leaves one attachment holding [2]. -/
theorem upload_attachment_twice_witness :
    ∃ aId,
      (uploadTwice ⟨[], 0⟩ "page1" "plot.png" [1] [2]).2.1 = .ok (.updated aId) ∧
      (∃ a1 ∈ (upload_attachment_to_page confluenceAttApi "page1" "plot.png" [1]
          ⟨[], 0⟩).2.atts, a1.filename = "plot.png" ∧ a1.id = aId) ∧
      ((uploadTwice ⟨[], 0⟩ "page1" "plot.png" [1] [2]).2.2.atts.filter
          (fun a => a.filename == "plot.png")).length = 1 ∧
      ∀ a ∈ (uploadTwice ⟨[], 0⟩ "page1" "plot.png" [1] [2]).2.2.atts,
        a.filename = "plot.png" → a.bytes = [2] ∧ a.id = aId :=
  upload_attachment_twice ⟨[], 0⟩ "page1" "plot.png" [1] [2] (by decide)

/-- C6: for any remote behaviour in which the create POST is rejected
with a 400 whose body contains "same file name" but the follow-up
lookup answers 200 with an empty result list, the attachment upsert
raises the find-existing-attachment exception (the spec's
`ConsistencyError`) instead of returning normally. -/
theorem upload_attachment_consistency_error {σ : Type} (srv : AttServer σ)
    (pageId filename : String) (b : List Nat) (s : σ)
    (cresp : HttpResp) (s1 : σ)
    (hpost : srv.postNew s pageId filename b = (cresp, s1))
    (hst : cresp.status = 400)
    (hcol : containsSub "same file name".data cresp.text.data = true)
    (lresp : HttpResp) (s2 : σ)
    (hget : srv.getByFilename s1 pageId filename = ((lresp, []), s2))
    (hlst : lresp.status = 200) :
    upload_attachment_to_page srv pageId filename b s =
      (.error (.attachmentNotFound lresp.status lresp.text), s2) := by
  have hcond := And.intro hst hcol
  unfold upload_attachment_to_page
  rw [hpost]
  dsimp only
  rw [if_pos hcond]
  unfold collisionPath
  rw [hget]
  dsimp only
  rw [if_pos hlst]

/-- Concrete instance of `upload_attachment_consistency_error`. -/
theorem upload_attachment_consistency_error_witness :
    upload_attachment_to_page emptyLookupApi "p1" "f.ils" [7] () =
      (.error (.attachmentNotFound 200 "empty"), ()) :=
  upload_attachment_consistency_error emptyLookupApi "p1" "f.ils" [7] ()
    ⟨400, "attachment with same file name exists"⟩ () rfl rfl (by decide)
    ⟨200, "empty"⟩ () rfl rfl

theorem new_page_isOk (title content parent : String) (cfg : Config)
    (env : NewPageEnv) : ∃ run, new_page title content parent cfg env = .ok run := by
  unfold new_page
  cases get_page_id_by_title parent cfg env.parentResp with
  | error e => exact ⟨_, rfl⟩
  | ok pid =>
    dsimp only
    cases h : (if env.existResp.status = 200 then
        findTarget env.existResp.results pid else none) with
    | none => exact ⟨_, rfl⟩
    | some r => exact ⟨_, rfl⟩

/-- C9: the batch loop processes every supported file of the listing,
in order; each file's recorded outcome is exactly the outcome of its
own processing, so a caught failure in one file's page upsert or
attachment upload (recorded as its logged outcome) never removes a
later file from the batch. -/
theorem upload_ils_directory_continues (cfg : Config)
    (globalParent sectionTitle dirTitle sectionContent containerContent : String)
    (listing : List String) (sectionEnv dirEnv : NewPageEnv)
    (fileEnvs : String → IlsFileEnv) :
    ((upload_ils_directory cfg globalParent sectionTitle dirTitle sectionContent
        containerContent listing sectionEnv dirEnv fileEnvs).perFile.map Prod.fst =
      listing.filter (fun f => isSupported f)) ∧
    (∀ f ∈ listing.filter (fun f => isSupported f),
      (f, processIlsFile cfg (fileEnvs f) dirTitle f) ∈
        (upload_ils_directory cfg globalParent sectionTitle dirTitle sectionContent
          containerContent listing sectionEnv dirEnv fileEnvs).perFile) ∧
    (∀ f ∈ listing.filter (fun f => isSupported f), ∀ e,
      (processIlsFile cfg (fileEnvs f) dirTitle f).attach = .failed e →
        (f, processIlsFile cfg (fileEnvs f) dirTitle f) ∈
          (upload_ils_directory cfg globalParent sectionTitle dirTitle sectionContent
            containerContent listing sectionEnv dirEnv fileEnvs).perFile) := by
  obtain ⟨r1, h1⟩ := new_page_isOk sectionTitle sectionContent globalParent cfg sectionEnv
  obtain ⟨r2, h2⟩ := new_page_isOk dirTitle containerContent sectionTitle cfg dirEnv
  unfold upload_ils_directory
  rw [h1, h2]
  dsimp only
  by_cases hempty : (listing.filter (fun f => isSupported f)) = []
  · rw [if_pos hempty, hempty]
    refine ⟨rfl, ?_, ?_⟩
    · intro f hf
      cases hf
    · intro f hf
      cases hf
  · rw [if_neg hempty]
    refine ⟨?_, ?_, ?_⟩
    · rw [List.map_map]
      have : (Prod.fst ∘ fun f => (f, processIlsFile cfg (fileEnvs f) dirTitle f)) =
          id := rfl
      rw [this, List.map_id]
    · intro f hf
      exact List.mem_map_of_mem (fun f => (f, processIlsFile cfg (fileEnvs f) dirTitle f)) hf
    · intro f hf e _
      exact List.mem_map_of_mem (fun f => (f, processIlsFile cfg (fileEnvs f) dirTitle f)) hf

theorem scanContent_cons_of_neg (c1 c2 c3 : Char) (rest : List Char)
    (h : ¬(c1 = ']' ∧ c2 = ']' ∧ c3 = '>')) :
    scanContent (c1 :: c2 :: c3 :: rest) =
      (scanContent (c2 :: c3 :: rest)).map (fun p => (c1 :: p.1, p.2)) := by
  simp only [scanContent]
  rw [if_neg h]

theorem scanContent_closer (t : List Char) :
    scanContent (']' :: ']' :: '>' :: t) = some ([], t) := by
  simp [scanContent]

theorem scanContent_cons_general (c : Char) (L : List Char) (hL : 2 ≤ L.length)
    (hg : ¬(c = ']' ∧ L.take 2 = [']', '>'])) :
    scanContent (c :: L) = (scanContent L).map (fun p => (c :: p.1, p.2)) := by
  cases L with
  | nil => simp at hL
  | cons c2 L2 =>
    cases L2 with
    | nil => simp at hL
    | cons c3 rest =>
      apply scanContent_cons_of_neg
      intro hcon
      apply hg
      refine ⟨hcon.1, ?_⟩
      rw [hcon.2.1, hcon.2.2]
      rfl

theorem scanContent_length : ∀ (l : List Char) (p : List Char × List Char),
    scanContent l = some p → p.2.length + 3 ≤ l.length := by
  intro l
  induction l with
  | nil =>
    intro p h
    rw [show scanContent [] = none from rfl] at h
    simp at h
  | cons c1 t ih =>
    intro p h
    cases t with
    | nil =>
      rw [show scanContent [c1] = none from rfl] at h
      simp at h
    | cons c2 t2 =>
      cases t2 with
      | nil =>
        rw [show scanContent [c1, c2] = none from rfl] at h
        simp at h
      | cons c3 rest =>
        simp only [scanContent] at h
        by_cases hg : c1 = ']' ∧ c2 = ']' ∧ c3 = '>'
        · rw [if_pos hg] at h
          injection h with h
          subst h
          simp
        · rw [if_neg hg] at h
          cases hs : scanContent (c2 :: c3 :: rest) with
          | none =>
            rw [hs] at h
            simp at h
          | some q =>
            rw [hs] at h
            have h2 : some (c1 :: q.1, q.2) = some p := h
            injection h2 with h3
            have hq := ih q hs
            rw [← h3]
            dsimp only
            simp only [List.length_cons] at hq ⊢
            omega

theorem isPrefixOf_append (l1 l2 : List Char) : l1.isPrefixOf (l1 ++ l2) = true := by
  induction l1 with
  | nil => simp [List.isPrefixOf]
  | cons a as ih => simp [List.isPrefixOf, ih]

theorem decodeSections_congr : ∀ (n : Nat), ∀ (m : Nat) (l : List Char),
    l.length ≤ n → l.length ≤ m → decodeSections n l = decodeSections m l := by
  intro n
  induction n with
  | zero =>
    intro m l hn _
    have : l = [] := List.eq_nil_of_length_eq_zero (Nat.le_zero.mp hn)
    subst this
    cases m <;> rfl
  | succ n ih =>
    intro m l hn hm
    cases l with
    | nil => cases m <;> rfl
    | cons c rest =>
      cases m with
      | zero => simp at hm
      | succ m =>
        simp only [decodeSections]
        by_cases hpre : cdataOpener.isPrefixOf (c :: rest) = true
        · rw [if_pos hpre, if_pos hpre]
          cases hs : scanContent ((c :: rest).drop 9) with
          | none => rfl
          | some p =>
            dsimp only
            have hlen := scanContent_length ((c :: rest).drop 9) p hs
            rw [List.length_drop] at hlen
            simp only [List.length_cons] at hn hm hlen
            rw [ih m p.2 (by omega) (by omega)]
        · rw [if_neg hpre, if_neg hpre]

theorem cdataDecode_opener (l : List Char) :
    cdataDecode (cdataOpener ++ l) = decodeAfterScan (scanContent l) := by
  have hpre : cdataOpener.isPrefixOf
      ('<' :: '!' :: '[' :: 'C' :: 'D' :: 'A' :: 'T' :: 'A' :: '[' :: l) = true :=
    isPrefixOf_append cdataOpener l
  unfold cdataDecode
  simp only [cdataOpener, List.cons_append, List.nil_append, List.length_cons]
  simp only [decodeSections]
  rw [if_pos hpre]
  have hdrop :
      ('<' :: '!' :: '[' :: 'C' :: 'D' :: 'A' :: 'T' :: 'A' :: '[' :: l).drop 9 = l := rfl
  rw [hdrop]
  unfold decodeAfterScan
  cases hs : scanContent l with
  | none => rfl
  | some p =>
    dsimp only
    have hlen := scanContent_length l p hs
    rw [decodeSections_congr _ p.2.length p.2 (by omega) (by omega)]
    rfl

theorem decodeAfterScan_map_cons (c : Char) (x : Option (List Char × List Char)) :
    decodeAfterScan (x.map (fun p => (c :: p.1, p.2))) =
      (decodeAfterScan x).map (fun d => c :: d) := by
  cases x with
  | none => rfl
  | some p =>
    show (cdataDecode p.2).map (fun d => (c :: p.1) ++ d) =
      ((cdataDecode p.2).map (fun d => p.1 ++ d)).map (fun d => c :: d)
    cases cdataDecode p.2 with
    | none => rfl
    | some d => rfl

theorem cdataEscape_append_take1 (u r : List Char) :
    (cdataEscape u ++ r).take 1 = (u ++ r).take 1 := by
  match u with
  | [] => rfl
  | [c] => rfl
  | [c1, c2] => rfl
  | c1 :: c2 :: c3 :: u' =>
    by_cases hg : c1 = ']' ∧ c2 = ']' ∧ c3 = '>'
    · rw [show cdataEscape (c1 :: c2 :: c3 :: u') = cdataEscSeq ++ cdataEscape u' from by
        simp [cdataEscape, hg.1, hg.2.1, hg.2.2]]
      rw [hg.1]
      rfl
    · rw [show cdataEscape (c1 :: c2 :: c3 :: u') = c1 :: cdataEscape (c2 :: c3 :: u') from by
        simp [cdataEscape, hg]]
      rfl

theorem cdataEscape_append_take2 (u r : List Char) :
    (cdataEscape u ++ r).take 2 = (u ++ r).take 2 := by
  match u with
  | [] => rfl
  | [c] => rfl
  | [c1, c2] => rfl
  | c1 :: c2 :: c3 :: u' =>
    by_cases hg : c1 = ']' ∧ c2 = ']' ∧ c3 = '>'
    · rw [show cdataEscape (c1 :: c2 :: c3 :: u') = cdataEscSeq ++ cdataEscape u' from by
        simp [cdataEscape, hg.1, hg.2.1, hg.2.2]]
      rw [hg.1, hg.2.1]
      rfl
    · rw [show cdataEscape (c1 :: c2 :: c3 :: u') = c1 :: cdataEscape (c2 :: c3 :: u') from by
        simp [cdataEscape, hg]]
      rw [show (c1 :: cdataEscape (c2 :: c3 :: u')) ++ r =
        c1 :: (cdataEscape (c2 :: c3 :: u') ++ r) from rfl]
      rw [show ((c1 :: c2 :: c3 :: u') ++ r).take 2 =
        c1 :: ((c2 :: c3 :: u') ++ r).take 1 from rfl]
      rw [show (c1 :: (cdataEscape (c2 :: c3 :: u') ++ r)).take 2 =
        c1 :: (cdataEscape (c2 :: c3 :: u') ++ r).take 1 from rfl]
      rw [cdataEscape_append_take1]

theorem escape_scan_decode_nil (t : List Char) :
    decodeAfterScan (scanContent (cdataEscape [] ++ (cdataCloser ++ t))) =
      (cdataDecode t).map (fun d => ([] : List Char) ++ d) := by
  rw [show cdataEscape [] ++ (cdataCloser ++ t) = ']' :: ']' :: '>' :: t from rfl]
  rw [scanContent_closer]
  rfl

theorem escape_scan_decode : ∀ (n : Nat) (s : List Char), s.length ≤ n →
    ∀ (t : List Char),
    decodeAfterScan (scanContent (cdataEscape s ++ (cdataCloser ++ t))) =
      (cdataDecode t).map (fun d => s ++ d) := by
  intro n
  induction n with
  | zero =>
    intro s hs t
    have hnil : s = [] := List.eq_nil_of_length_eq_zero (Nat.le_zero.mp hs)
    subst hnil
    exact escape_scan_decode_nil t
  | succ n ih =>
    intro s hs t
    cases s with
    | nil => exact escape_scan_decode_nil t
    | cons c1 s1 =>
      cases s1 with
      | nil =>
        rw [show cdataEscape [c1] ++ (cdataCloser ++ t) =
          c1 :: ']' :: ']' :: '>' :: t from rfl]
        rw [scanContent_cons_of_neg c1 ']' ']' ('>' :: t)
          (fun h => absurd h.2.2 (by decide))]
        rw [scanContent_closer]
        rfl
      | cons c2 s2 =>
        cases s2 with
        | nil =>
          rw [show cdataEscape [c1, c2] ++ (cdataCloser ++ t) =
            c1 :: c2 :: ']' :: ']' :: '>' :: t from rfl]
          rw [scanContent_cons_of_neg c1 c2 ']' (']' :: '>' :: t)
            (fun h => absurd h.2.2 (by decide))]
          rw [scanContent_cons_of_neg c2 ']' ']' ('>' :: t)
            (fun h => absurd h.2.2 (by decide))]
          rw [scanContent_closer]
          rfl
        | cons c3 u =>
          simp only [List.length_cons] at hs
          by_cases hg : c1 = ']' ∧ c2 = ']' ∧ c3 = '>'
          · obtain ⟨hg1, hg2, hg3⟩ := hg
            subst hg1
            subst hg2
            subst hg3
            rw [show cdataEscape (']' :: ']' :: '>' :: u) =
              cdataEscSeq ++ cdataEscape u from by simp [cdataEscape]]
            rw [show (cdataEscSeq ++ cdataEscape u) ++ (cdataCloser ++ t) =
              ']' :: ']' :: ']' :: ']' :: '>' :: '<' :: '!' :: '[' :: 'C' :: 'D' ::
                'A' :: 'T' :: 'A' :: '[' :: '>' ::
                  (cdataEscape u ++ (cdataCloser ++ t)) from by
              simp [cdataEscSeq]]
            rw [scanContent_cons_of_neg ']' ']' ']' _ (fun h => absurd h.2.2 (by decide))]
            rw [scanContent_cons_of_neg ']' ']' ']' _ (fun h => absurd h.2.2 (by decide))]
            rw [scanContent_closer]
            dsimp only [Option.map, decodeAfterScan]
            rw [show ('<' :: '!' :: '[' :: 'C' :: 'D' :: 'A' :: 'T' :: 'A' :: '[' :: '>' ::
              (cdataEscape u ++ (cdataCloser ++ t))) =
              cdataOpener ++ ('>' :: (cdataEscape u ++ (cdataCloser ++ t))) from rfl]
            rw [cdataDecode_opener]
            rw [scanContent_cons_general '>' (cdataEscape u ++ (cdataCloser ++ t))
              (by simp [cdataCloser]; omega) (fun h => absurd h.1 (by decide))]
            rw [decodeAfterScan_map_cons]
            rw [ih u (by omega) t]
            cases hd : cdataDecode t with
            | none => rfl
            | some d => rfl
          · rw [show cdataEscape (c1 :: c2 :: c3 :: u) =
              c1 :: cdataEscape (c2 :: c3 :: u) from by simp [cdataEscape, hg]]
            rw [show (c1 :: cdataEscape (c2 :: c3 :: u)) ++ (cdataCloser ++ t) =
              c1 :: (cdataEscape (c2 :: c3 :: u) ++ (cdataCloser ++ t)) from rfl]
            have hgg : ¬(c1 = ']' ∧
                (cdataEscape (c2 :: c3 :: u) ++ (cdataCloser ++ t)).take 2 =
                  [']', '>']) := by
              intro h
              apply hg
              have h2 := h.2
              rw [cdataEscape_append_take2] at h2
              rw [show ((c2 :: c3 :: u) ++ (cdataCloser ++ t)).take 2 =
                [c2, c3] from rfl] at h2
              injection h2 with ha hb
              injection hb with hb1
              exact ⟨h.1, ha, hb1⟩
            rw [scanContent_cons_general c1 (cdataEscape (c2 :: c3 :: u) ++ (cdataCloser ++ t))
              (by simp [cdataCloser]; omega) hgg]
            rw [decodeAfterScan_map_cons]
            rw [ih (c2 :: c3 :: u) (by simp only [List.length_cons]; omega) t]
            cases hd : cdataDecode t with
            | none => rfl
            | some d => rfl

theorem cdataDecode_cdataEscape (s : List Char) :
    cdataDecode (cdataOpener ++ (cdataEscape s ++ cdataCloser)) = some s := by
  have h := escape_scan_decode s.length s le_rfl []
  rw [List.append_nil] at h
  rw [cdataDecode_opener, h]
  rw [show cdataDecode [] = some [] from rfl]
  simp

/-- C8: the CDATA escaping applied before embedding source text in the
code-block template (upload_ils.py line 41, upload_ils_folder.py
line 41: every occurrence of "]]>" replaced by "]]]]><![CDATA[>")
produces markup whose CDATA decoding returns the original text exactly:
escape-then-decode is the identity, so an embedded "]]>" is treated as
literal text and never as an early end of the CDATA section. -/
theorem cdata_roundtrip (s : String) :
    cdataDecode ("<![CDATA[".data ++ (cdataEscape s.data ++ "]]>".data)) =
      some s.data := by
  rw [show "<![CDATA[".data = cdataOpener from rfl]
  rw [show "]]>".data = cdataCloser from rfl]
  exact cdataDecode_cdataEscape s.data
